import Mathlib

/-!
Verification development for the vancgo claim bot.

The Go repository races to claim a time-locked Stellar-style claimable
balance and relay the freed funds.  This file gives a shallow embedding of
the components the specification talks about:

- the time-lock predicate resolver (util/util.go, ExtractClaimableTime);
- the fee helpers (util fees file, GetCompetitiveFee and GetTransferFee);
- the scheduler wait computation (server/transaction.go and the bot file,
  StartAggressiveBot);
- the claimant-selection gate of StartAggressiveBot;
- the spendable-balance query (wallet/wallet.go, GetAvailableBalance);
- the transaction builders (wallet transaction file, ClaimAndWithdraw and
  WithdrawClaimableBalance; wallet/sponsor.go, ClaimBalanceWithSponsor);
- the claim worker loop (bot file, aggressiveClaim) as a trace-producing
  function over an oracle of per-attempt submission results;
- the relay monitor loop (bot file, prepareTransfer) over an oracle of
  per-iteration query results;
- an interleaving semantics for the five claim workers sharing one
  cancellation flag, and for the two output locks guarding websocket
  writes.

Wall-clock times are modelled as integers (unix seconds for unlock
instants, milliseconds for sleeps); monetary amounts as rationals.
-/

namespace Vancgo

/-! ## Time-lock predicates and the resolver (util/util.go) -/

/-- Go xdr.ClaimPredicate, restricted to the constructors the code
inspects.  The conjunction and disjunction constructors keep their
children so that every shape of the Go type is representable. -/
inductive ClaimPredicate where
  | unconditional : ClaimPredicate
  | andP : ClaimPredicate → ClaimPredicate → ClaimPredicate
  | orP : ClaimPredicate → ClaimPredicate → ClaimPredicate
  | notP : ClaimPredicate → ClaimPredicate
  | beforeAbsoluteTime : Int → ClaimPredicate
  | beforeRelativeTime : Int → ClaimPredicate
deriving DecidableEq, Repr

/-- Go time.Time as the code uses it: either the zero value time.Time
(the result of time.Time in Go, produced on the failure paths) or
time.Unix(sec, 0). -/
inductive GoTime where
  | zeroTime : GoTime
  | unix : Int → GoTime
deriving DecidableEq, Repr

/-- util.ExtractClaimableTime (final variant of util/util.go): a switch on
the predicate type.  A NOT predicate resolves to the absolute time of an
inner BeforeAbsoluteTime, UNCONDITIONAL resolves to the epoch
time.Unix(0, 0), and everything else reports failure. -/
def ExtractClaimableTime : ClaimPredicate → GoTime × Bool
  | .notP inner =>
      match inner with
      | .beforeAbsoluteTime t => (.unix t, true)
      | _ => (.zeroTime, false)
  | .unconditional => (.unix 0, true)
  | _ => (.zeroTime, false)

/-! ## Fee helpers (util fees file) -/

/-- The fixed competitive fee tier set, in stroops. -/
def competitiveFees : List Int :=
  [3200000, 9400000, 5000000, 7500000, 12000000]

/-- util.GetCompetitiveFee draws rand.Intn(len(competitiveFees)) and
indexes the tier set; the random index is made explicit as a Fin 5
argument. -/
def GetCompetitiveFee (idx : Fin 5) : Int :=
  competitiveFees.getD idx.val 0

/-- util.GetTransferFee: the fixed elevated transfer fee. -/
def GetTransferFee : Int := 5000000

/-! ## Scheduler wait (server/transaction.go scheduleAggressiveBot and the
bot StartAggressiveBot, identical logic) -/

/-- The wait the scheduler performs, in milliseconds.  Go computes
startTime := claimableAt.Add(-5 * time.Second) and
waitDuration := time.Until(startTime), sleeping only when the duration is
positive. -/
def scheduleWait (now claimableAt : Int) : Int :=
  let startTime := claimableAt - 5000
  let waitDuration := startTime - now
  if 0 < waitDuration then waitDuration else 0

/-! ## Events (server WithdrawResponse) -/

/-- The JSON event written to the observer websocket.  The Go struct
formats the worker id into the Message string as a G marker; the embedding
keeps it as a separate field next to the message body.  The wall-clock
Time and ServerTime strings are not modelled. -/
structure WithdrawResponse where
  attemptNumber : Nat
  gid : Option Nat
  message : String
  success : Bool
  amount : Rat
  action : String
deriving DecidableEq, Repr

/-- bot sendError: an error event. -/
def errorEvent (msg : String) : WithdrawResponse :=
  { attemptNumber := 0, gid := none, message := msg,
    success := false, amount := 0, action := "error" }

/-- bot sendSuccess: a success event. -/
def successEvent (msg : String) : WithdrawResponse :=
  { attemptNumber := 0, gid := none, message := msg,
    success := true, amount := 0, action := "success" }

/-- bot sendMessage: an informational event. -/
def infoEvent (msg : String) : WithdrawResponse :=
  { attemptNumber := 0, gid := none, message := msg,
    success := true, amount := 0, action := "info" }

/-! ## Claimants and the StartAggressiveBot gate (bot file) -/

/-- A claimant of a claimable balance: destination address plus raw
predicate. -/
structure Claimant where
  destination : String
  predicate : ClaimPredicate
deriving DecidableEq, Repr

/-- horizon.ClaimableBalance, restricted to the fields the code reads. -/
structure ClaimableBalance where
  balanceId : String
  claimants : List Claimant
deriving DecidableEq, Repr

/-- The claimant-selection and resolution gate at the top of
StartAggressiveBot: ok starts false; when the claimant list is nonempty
the resolver runs on the predicate of claimants[0]; when ok is still
false an error event is sent and no race is started, otherwise the race
proceeds with the extracted unlock time. -/
def StartAggressiveBotGate (balance : ClaimableBalance) :
    List WithdrawResponse × Option GoTime :=
  match balance.claimants.head? with
  | some c =>
      let r := ExtractClaimableTime c.predicate
      if r.2 then ([], some r.1)
      else ([errorEvent "Failed to extract claimable time"], none)
  | none => ([errorEvent "Failed to extract claimable time"], none)

/-- Outcome of the session entry path for the locked balance.  panicked
is the Go runtime index-out-of-range failure: the handler crashes with no
error event and no race.  fatalError is sendErrorResponse followed by
return: an error event and no race.  raceStarted abstracts both branches
of the time comparison, immediate start and the scheduled start whose
wait is scheduleWait. -/
inductive SessionOutcome where
  | panicked : SessionOutcome
  | fatalError : String → SessionOutcome
  | raceStarted : GoTime → SessionOutcome
deriving DecidableEq, Repr

/-- server handleLockedBalance: the session entry point reads
balance.Claimants[0].Predicate with no length guard, so an empty
claimant list panics before any event is sent; a failing resolution
sends the fatal error event and returns; otherwise the race is started,
immediately or through the scheduler.  (The bot gate
StartAggressiveBotGate then re-extracts from the same first claimant and
succeeds whenever this resolution did.) -/
def handleLockedBalance (balance : ClaimableBalance) : SessionOutcome :=
  match balance.claimants.head? with
  | none => .panicked
  | some c =>
      let r := ExtractClaimableTime c.predicate
      if r.2 then .raceStarted r.1
      else .fatalError "Cannot determine unlock time"

/-- Modelled from the spec: the specification states that the Resolver is
applied to the predicate belonging to the claimant whose destination
equals the primary signer address, and that a session with no such
claimant, or a failing resolution, surfaces a fatal configuration error
and starts no race.  No source function performs this destination-matched
selection; this definition follows the words of the spec for comparison
with StartAggressiveBotGate. -/
def specClaimantSelectionGate (primaryAddr : String)
    (balance : ClaimableBalance) :
    List WithdrawResponse × Option GoTime :=
  match balance.claimants.find? (fun c => c.destination == primaryAddr) with
  | some c =>
      let r := ExtractClaimableTime c.predicate
      if r.2 then ([], some r.1)
      else ([errorEvent "Failed to extract claimable time"], none)
  | none => ([errorEvent "Failed to extract claimable time"], none)

/-! ## Spendable balance (wallet/wallet.go GetAvailableBalance) -/

/-- One entry of horizon account Balances. -/
structure BalanceLine where
  assetType : String
  balance : Rat
deriving DecidableEq, Repr

/-- horizon.Account, restricted to the fields GetAvailableBalance
reads. -/
structure Account where
  balances : List BalanceLine
  subentryCount : Nat
deriving DecidableEq, Repr

/-- The total native balance: the Go loop takes the first balance entry of
type native and breaks, defaulting to zero when none exists. -/
def nativeBalanceOf (acct : Account) : Rat :=
  match acct.balances.find? (fun b => b.assetType == "native") with
  | some b => b.balance
  | none => 0

/-- The minimum reserve the code computes: baseReserve * (2 +
SubentryCount). -/
def minReserve (baseReserve : Rat) (acct : Account) : Rat :=
  baseReserve * (2 + (acct.subentryCount : Rat))

/-- wallet.GetAvailableBalance: native balance minus the minimum reserve,
clamped at zero.  The %.2f string formatting of the result is not
modelled; the returned value is the amount before formatting. -/
def GetAvailableBalance (baseReserve : Rat) (acct : Account) : Rat :=
  let totalBalance := nativeBalanceOf acct
  let available := totalBalance - minReserve baseReserve acct
  if available < 0 then 0 else available

/-! ## Transactions (wallet transaction file and wallet/sponsor.go) -/

/-- A txnbuild operation, restricted to the two kinds the claim path
builds. -/
inductive TxOp where
  | claimClaimableBalance : String → TxOp
  | payment : String → Rat → TxOp
deriving DecidableEq, Repr

/-- The submitted transaction, restricted to the fields the claims talk
about: fee-paying source account, the ordered operation list, the base
fee and the signing keys in signing order. -/
structure Tx where
  sourceAccount : String
  operations : List TxOp
  baseFee : Int
  signers : List String
deriving DecidableEq, Repr

/-- wallet.ClaimBalanceWithSponsor: a single claim operation, the sponsor
account as transaction source (fee payer), the caller-chosen fee, signed
by sponsor and main key. -/
def ClaimBalanceWithSponsor (mainAddr sponsorAddr balanceID : String)
    (fee : Int) : Tx :=
  { sourceAccount := sponsorAddr
    operations := [.claimClaimableBalance balanceID]
    baseFee := fee
    signers := [sponsorAddr, mainAddr] }

/-- wallet.ClaimAndWithdraw: a claim operation followed by a payment of
the given amount to the destination address, from the main account, at
the fixed base fee 1000000, signed by the main key only. -/
def ClaimAndWithdraw (mainAddr : String) (amount : Rat)
    (balanceID address : String) : Tx :=
  { sourceAccount := mainAddr
    operations := [.claimClaimableBalance balanceID, .payment address amount]
    baseFee := 1000000
    signers := [mainAddr] }

/-- wallet.WithdrawClaimableBalance: parses the amount hint, subtracts
0.01 and delegates to ClaimAndWithdraw.  The string parse is elided; the
hint is taken as a rational. -/
def WithdrawClaimableBalance (mainAddr : String) (amountHint : Rat)
    (balanceID address : String) : Tx :=
  ClaimAndWithdraw mainAddr (amountHint - 1/100) balanceID address

/-- The transaction one claim attempt of aggressiveClaim submits: with a
sponsor configured, ClaimBalanceWithSponsor at a competitive fee drawn at
the random index; otherwise WithdrawClaimableBalance from the main
wallet. -/
def attemptTx (mainAddr : String) (sponsor : Option String) (idx : Fin 5)
    (amountHint : Rat) (balanceID address : String) : Tx :=
  match sponsor with
  | some sponsorAddr =>
      ClaimBalanceWithSponsor mainAddr sponsorAddr balanceID
        (GetCompetitiveFee idx)
  | none => WithdrawClaimableBalance mainAddr amountHint balanceID address

/-! ## The claim worker loop (bot file, aggressiveClaim)

The loop is embedded as a trace-producing function.  The external
submission interface is an oracle mapping the attempt number to the
result triple (hash, amount, err) the wallet call returns; the
cancellation checkpoint at the loop top reads a predicate of the attempt
number standing for ctx.Done() being selectable at that iteration. -/

/-- The result of one wallet claim call: hash, amount and optional
error. -/
structure ClaimRes where
  hash : String
  amount : Rat
  err : Option String
deriving DecidableEq, Repr

/-- Terminal phase of one worker run. -/
inductive WOutcome where
  | succeededO | cancelledO | exhaustedO
deriving DecidableEq, Repr

/-- Observable trace of one worker run: events written to the sink, the
sleep durations performed (milliseconds, in order), whether cb.cancel was
invoked, and the terminal phase. -/
structure WRun where
  events : List WithdrawResponse
  sleeps : List Nat
  cancelCalled : Bool
  outcome : WOutcome
deriving DecidableEq, Repr

/-- bot sendAttemptLog for one attempt: attempt number, worker id, the
amount the call returned, success meaning err == nil, message the hash on
success or the error text on failure. -/
def sendAttemptLogEvent (gid attempt : Nat) (r : ClaimRes) :
    WithdrawResponse :=
  { attemptNumber := attempt
    gid := some gid
    message := match r.err with | some e => e | none => r.hash
    success := r.err.isNone
    amount := r.amount
    action := "attempt" }

/-- The worker attempt budget. -/
def maxAttempts : Nat := 200

/-- One pass of the aggressiveClaim loop body, recursing on the remaining
attempt budget, with n the current attempt number: checkpoint ctx.Done at
the loop top, perform the claim call, log the attempt, on success send
the success event and call cancel, on failure sleep 50 + attempt*10
milliseconds and continue. -/
def aggressiveClaimGo (ctxDone : Nat → Bool) (oracle : Nat → ClaimRes)
    (gid : Nat) : Nat → Nat → WRun
  | 0, _ => ⟨[], [], false, .exhaustedO⟩
  | fuel + 1, n =>
      if ctxDone n then ⟨[], [], false, .cancelledO⟩
      else
        let r := oracle n
        let ev := sendAttemptLogEvent gid n r
        if r.err.isNone then
          ⟨[ev, successEvent "Successfully claimed"], [], true, .succeededO⟩
        else
          let rest := aggressiveClaimGo ctxDone oracle gid fuel (n + 1)
          ⟨ev :: rest.events, (50 + n * 10) :: rest.sleeps,
            rest.cancelCalled, rest.outcome⟩

/-- bot aggressiveClaim: the loop from attempt 1 with the maxAttempts
budget; falling out of the loop returns silently with no further
event. -/
def aggressiveClaim (ctxDone : Nat → Bool) (oracle : Nat → ClaimRes)
    (gid : Nat) : WRun :=
  aggressiveClaimGo ctxDone oracle gid maxAttempts 1

/-! ## The relay monitor loop (bot file, prepareTransfer) -/

/-- The observations of one monitor iteration: whether ctx.Done is
selectable at the loop top, the GetAvailableBalance result and the
TransferWithFee result that would be returned were the transfer
attempted. -/
structure MonIter where
  ctxDone : Bool
  balanceRes : Except String String
  transferRes : Except String String
deriving Repr

/-- Terminal phase of a monitor run. -/
inductive MonOutcome where
  | timedOutO | cancelledO | relayedO
deriving DecidableEq, Repr

/-- Observable trace of a monitor run. -/
structure MonRun where
  events : List WithdrawResponse
  cancelCalled : Bool
  outcome : MonOutcome
deriving DecidableEq, Repr

/-- bot prepareTransfer: loop bounded by the 30 second budget (the input
list length stands for the remaining 100ms polling iterations within the
budget); checkpoint ctx.Done, query the balance, and when it is ok and
nonzero attempt the full transfer at GetTransferFee; on transfer success
send one success event and return; on any failure continue polling. -/
def prepareTransfer : List MonIter → MonRun
  | [] => ⟨[], false, .timedOutO⟩
  | it :: rest =>
      if it.ctxDone then ⟨[], false, .cancelledO⟩
      else
        match it.balanceRes with
        | .ok b =>
            if b ≠ "0" then
              match it.transferRes with
              | .ok _ => ⟨[successEvent "Transfer completed"], false, .relayedO⟩
              | .error _ => prepareTransfer rest
            else prepareTransfer rest
        | .error _ => prepareTransfer rest

/-! ## Race-session interleaving (bot file, StartAggressiveBot body)

StartAggressiveBot launches five aggressiveClaim goroutines sharing one
context cancellation.  The session is modelled as an interleaving of the
five workers in which the blocking wallet call is a genuine suspension
point: passing the loop-top checkpoint and starting the network call is
one step (they are adjacent statements with no suspension between them),
after which the worker sits in an inFlight phase while other workers
move; the call completes in a later, separate step.  Several workers can
therefore be in flight at once, and a call in flight when the token is
signalled still completes and still appends its attempt record.  The
external ledger enforces single-claim semantics itself: the session
carries a resourceClaimed flag, a completion may deliver success only
while the resource is unclaimed and claims it, and a completion may
deliver failure at any time.  At most one success record is a
consequence of this external enforcement, not of step atomicity.  The
post-call bookkeeping of a completion (attempt record, and on success
the cancel call) is taken as one step: no cooperative checkpoint and no
spec-listed suspension point lies between the call returning and the
cancel call. -/

/-- Phase of one worker inside a session. -/
inductive Phase where
  | running | inFlight | succeeded | cancelledP | exhausted
deriving DecidableEq, Repr

/-- Per-worker state: the attempt number of the current loop iteration,
and the phase. -/
structure WorkerSt where
  nextAttempt : Nat
  phase : Phase
deriving DecidableEq, Repr

/-- One attempt record as consumed by the event sink. -/
structure AttemptRecord where
  workerId : Fin 5
  attempt : Nat
  success : Bool
deriving DecidableEq, Repr

/-- Session state: the shared cancellation flag, whether the external
resource has already been claimed (the single-claim semantics the ledger
itself enforces), the five workers, and the records emitted so far, in
emission order. -/
structure BotSt where
  cancelled : Bool
  resourceClaimed : Bool
  workers : Fin 5 → WorkerSt
  records : List AttemptRecord

/-- Initial session state right after the goroutines are launched. -/
def initBot : BotSt :=
  { cancelled := false
    resourceClaimed := false
    workers := fun _ => ⟨1, .running⟩
    records := [] }

/-- Interleaved small-step relation of the session.  checkpoint: the
loop-top select sees ctx.Done and the worker returns.  startCall: the
select falls through (token unset) and the blocking wallet call begins;
the worker is now in flight.  completeSuccess: an in-flight call returns
without error, possible only while the external resource is unclaimed,
and it claims it; the record is appended and the worker calls cancel.
completeFail: an in-flight call returns an error (always possible, and
the only possible completion once the resource is claimed); the record
is appended and the worker moves to the next attempt.  exhaust: the loop
condition fails after the budget and the worker returns silently. -/
inductive BotStep : BotSt → BotSt → Prop
  | checkpoint (s : BotSt) (w : Fin 5) :
      (s.workers w).phase = .running →
      s.cancelled = true →
      BotStep s
        { s with workers := (Function.update s.workers w
            ⟨(s.workers w).nextAttempt, .cancelledP⟩) }
  | startCall (s : BotSt) (w : Fin 5) :
      (s.workers w).phase = .running →
      s.cancelled = false →
      (s.workers w).nextAttempt ≤ maxAttempts →
      BotStep s
        { s with workers := (Function.update s.workers w
            ⟨(s.workers w).nextAttempt, .inFlight⟩) }
  | completeSuccess (s : BotSt) (w : Fin 5) :
      (s.workers w).phase = .inFlight →
      s.resourceClaimed = false →
      BotStep s
        { cancelled := true
          resourceClaimed := true
          workers := Function.update s.workers w
            ⟨(s.workers w).nextAttempt, .succeeded⟩
          records := s.records ++ [⟨w, (s.workers w).nextAttempt, true⟩] }
  | completeFail (s : BotSt) (w : Fin 5) :
      (s.workers w).phase = .inFlight →
      BotStep s
        { s with
          workers := (Function.update s.workers w
            ⟨(s.workers w).nextAttempt + 1, .running⟩)
          records := s.records ++ [⟨w, (s.workers w).nextAttempt, false⟩] }
  | exhaust (s : BotSt) (w : Fin 5) :
      (s.workers w).phase = .running →
      maxAttempts < (s.workers w).nextAttempt →
      BotStep s
        { s with workers := (Function.update s.workers w
            ⟨(s.workers w).nextAttempt, .exhausted⟩) }

/-- States reachable in a session. -/
inductive BotReach : BotSt → Prop
  | init : BotReach initBot
  | step {s s' : BotSt} : BotReach s → BotStep s s' → BotReach s'

/-- Number of success records emitted so far. -/
def countSucc (s : BotSt) : Nat :=
  (s.records.filter (fun r => r.success)).length

/-! ## Output locking (server/transaction.go writeMu and the bot mutex)

Server handlers serialize websocket writes through the package-level
writeMu; the ConcurrentBot actors serialize theirs through the per-bot
cb.mutex.  Each write is modelled as acquire, begin write, end write,
release; an actor between begin and end is mid-write, and two actors
mid-write at once on the same connection is an interleaved (torn)
write. -/

/-- The two mutexes appearing in the code. -/
inductive LockId where
  | writeMu | botMutex
deriving DecidableEq, Repr

/-- The lock sendResponse and sendErrorResponse take
(server/transaction.go). -/
def serverWriteLock : LockId := .writeMu

/-- The lock sendMessage, sendError, sendSuccess and sendAttemptLog take
(bot file, cb.mutex). -/
def botWriteLock : LockId := .botMutex

/-- An assignment of a guarding lock to each of two concurrent actors
writing to the same connection. -/
abbrev LockAssign := Bool → LockId

/-- The assignment the code realizes for a server handler (actor false)
and a bot actor (actor true) writing concurrently. -/
def codeLocks : LockAssign :=
  fun a => if a then botWriteLock else serverWriteLock

/-- The assignment the claim describes: one shared lock guarding every
write. -/
def oneSharedLock : LockAssign := fun _ => .writeMu

/-- State of the two writers: program counter per actor (0 idle, 1 lock
held, 2 mid-write, 3 written, 4 done) and the holder of each lock. -/
structure SyncSt where
  pc : Bool → Nat
  holder : LockId → Option Bool

/-- Initial locking state. -/
def syncInit : SyncSt :=
  { pc := fun _ => 0, holder := fun _ => none }

/-- One write each, interleaved: acquire the assigned lock, write (two
micro-steps so overlap is observable), release. -/
inductive SyncStep (L : LockAssign) : SyncSt → SyncSt → Prop
  | acquire (s : SyncSt) (a : Bool) :
      s.pc a = 0 → s.holder (L a) = none →
      SyncStep L s ⟨Function.update s.pc a 1,
        Function.update s.holder (L a) (some a)⟩
  | beginWrite (s : SyncSt) (a : Bool) :
      s.pc a = 1 →
      SyncStep L s ⟨Function.update s.pc a 2, s.holder⟩
  | endWrite (s : SyncSt) (a : Bool) :
      s.pc a = 2 →
      SyncStep L s ⟨Function.update s.pc a 3, s.holder⟩
  | release (s : SyncSt) (a : Bool) :
      s.pc a = 3 →
      SyncStep L s ⟨Function.update s.pc a 4,
        Function.update s.holder (L a) none⟩

/-- Reachable locking states. -/
inductive SyncReach (L : LockAssign) : SyncSt → Prop
  | init : SyncReach L syncInit
  | step {s s' : SyncSt} : SyncReach L s → SyncStep L s s' →
      SyncReach L s'

/-- Actor a is mid-write. -/
def midWrite (s : SyncSt) (a : Bool) : Prop := s.pc a = 2

/-- Both actors mid-write at once: an interleaved write. -/
def tornWrite (s : SyncSt) : Prop := midWrite s false ∧ midWrite s true

/-- The state in which both the server handler and the bot actor are
mid-write, each holding its own lock. -/
def tornState : SyncSt :=
  { pc := fun _ => 2
    holder := fun l => match l with
      | .writeMu => some false
      | .botMutex => some true }

/-! ## Claim theorems -/

/-- Claim C3: for every claimant predicate, a predicate of shape
NOT(BEFORE(t)) resolves to (t, true), UNCONDITIONAL resolves to the epoch
with true, and every other shape resolves to (_, false). -/
theorem c3_resolver_shapes (p : ClaimPredicate) :
    (∀ t : Int, p = .notP (.beforeAbsoluteTime t) →
      ExtractClaimableTime p = (.unix t, true))
    ∧ (p = .unconditional → ExtractClaimableTime p = (.unix 0, true))
    ∧ ((∀ t : Int, p ≠ .notP (.beforeAbsoluteTime t)) →
      p ≠ .unconditional → (ExtractClaimableTime p).2 = false) := by
  refine ⟨?_, ?_, ?_⟩
  · rintro t rfl; rfl
  · rintro rfl; rfl
  · intro h1 h2
    cases p with
    | unconditional => exact absurd rfl h2
    | notP inner =>
        cases inner with
        | beforeAbsoluteTime t => exact absurd rfl (h1 t)
        | unconditional => rfl
        | andP a b => rfl
        | orP a b => rfl
        | notP q => rfl
        | beforeRelativeTime t => rfl
    | andP a b => rfl
    | orP a b => rfl
    | beforeAbsoluteTime t => rfl
    | beforeRelativeTime t => rfl

/-- Witness for C3 at the concrete predicate NOT(BEFORE(42)). -/
theorem c3_resolver_shapes_witness :
    ExtractClaimableTime (.notP (.beforeAbsoluteTime 42))
      = (.unix 42, true) :=
  (c3_resolver_shapes (.notP (.beforeAbsoluteTime 42))).1 42 rfl

/-- Claim C7: with startTime = unlock - 5s already in the past the
scheduler waits zero; otherwise it waits exactly until startTime, i.e.
the wait ends at unlock - 5s and not at the unlock instant itself. -/
theorem c7_scheduler_wait (now t : Int) :
    (t - 5000 ≤ now → scheduleWait now t = 0)
    ∧ (now < t - 5000 →
        scheduleWait now t = t - 5000 - now
        ∧ now + scheduleWait now t = t - 5000
        ∧ now + scheduleWait now t ≠ t) := by
  have hw : scheduleWait now t
      = if 0 < t - 5000 - now then t - 5000 - now else 0 := rfl
  rw [hw]
  constructor
  · intro h
    split <;> omega
  · intro h
    refine ⟨?_, ?_, ?_⟩ <;> (split <;> omega)

/-- Witness for C7 at now = 0, unlock = 10000. -/
theorem c7_scheduler_wait_witness :
    scheduleWait 0 10000 = 10000 - 5000 - 0
    ∧ 0 + scheduleWait 0 10000 = 10000 - 5000
    ∧ 0 + scheduleWait 0 10000 ≠ 10000 :=
  (c7_scheduler_wait 0 10000).2 (by decide)

/-- Claim C8: the spendable-balance query returns the native balance
minus the minimum reserve and never returns a negative amount. -/
theorem c8_available_balance (baseReserve : Rat) (acct : Account) :
    0 ≤ GetAvailableBalance baseReserve acct
    ∧ (minReserve baseReserve acct ≤ nativeBalanceOf acct →
        GetAvailableBalance baseReserve acct
          = nativeBalanceOf acct - minReserve baseReserve acct) := by
  have hw : GetAvailableBalance baseReserve acct
      = if nativeBalanceOf acct - minReserve baseReserve acct < 0 then 0
        else nativeBalanceOf acct - minReserve baseReserve acct := rfl
  rw [hw]
  constructor
  · split
    · exact le_refl 0
    · linarith [not_lt.mp (by assumption :
        ¬ nativeBalanceOf acct - minReserve baseReserve acct < 0)]
  · intro h
    split
    · linarith
    · rfl

/-- Witness for C8 at a concrete account with native balance 10, subentry
count 0 and base reserve 1/2. -/
theorem c8_available_balance_witness :
    0 ≤ GetAvailableBalance (1/2) ⟨[⟨"native", 10⟩], 0⟩
    ∧ GetAvailableBalance (1/2) ⟨[⟨"native", 10⟩], 0⟩
        = nativeBalanceOf ⟨[⟨"native", 10⟩], 0⟩
          - minReserve (1/2) ⟨[⟨"native", 10⟩], 0⟩ :=
  ⟨(c8_available_balance (1/2) ⟨[⟨"native", 10⟩], 0⟩).1,
    (c8_available_balance (1/2) ⟨[⟨"native", 10⟩], 0⟩).2 (by
      show minReserve (1/2) ⟨[⟨"native", 10⟩], 0⟩ ≤ _
      simp [minReserve, nativeBalanceOf])⟩

/-- Claim C2 counterexample: a session whose resource has a single
claimant with a destination different from the primary signer address
and a resolvable NOT(BEFORE(50)) predicate.  The claim mandates a fatal
configuration error and no race, since no claimant matches the primary
address; the code resolves claimants[0] regardless of destination, emits
no error and starts the race, and disagrees with the spec-modelled
destination-matched selection. -/
theorem c2_counterexample :
    (∀ c ∈ (ClaimableBalance.mk "B1"
        [⟨"GOTHER", .notP (.beforeAbsoluteTime 50)⟩]).claimants,
      c.destination ≠ "GPRIMARY")
    ∧ StartAggressiveBotGate
        ⟨"B1", [⟨"GOTHER", .notP (.beforeAbsoluteTime 50)⟩]⟩
        = ([], some (.unix 50))
    ∧ (specClaimantSelectionGate "GPRIMARY"
        ⟨"B1", [⟨"GOTHER", .notP (.beforeAbsoluteTime 50)⟩]⟩).2
        = none := by
  refine ⟨by decide, rfl, rfl⟩

/-- Claim C2 as amended: the resolver is applied to the predicate of the
first claimant in the claimant list regardless of destination.  A
session whose first predicate fails to resolve gets the fatal
configuration error event and no race.  A session whose claimant list is
empty panics in handleLockedBalance on the unguarded Claimants[0] index,
with no error event and no race (the guarded empty-list branch of the
bot gate is unreachable at session level).  Otherwise the race starts
with the extracted time, and the bot gate re-extraction from the same
first claimant agrees. -/
theorem c2_first_claimant_session (balance : ClaimableBalance) :
    (balance.claimants = [] →
      handleLockedBalance balance = .panicked)
    ∧ (∀ c rest, balance.claimants = c :: rest →
        ((ExtractClaimableTime c.predicate).2 = true →
          handleLockedBalance balance
            = .raceStarted (ExtractClaimableTime c.predicate).1
          ∧ StartAggressiveBotGate balance
            = ([], some (ExtractClaimableTime c.predicate).1))
        ∧ ((ExtractClaimableTime c.predicate).2 = false →
          handleLockedBalance balance
            = .fatalError "Cannot determine unlock time")) := by
  constructor
  · intro h
    unfold handleLockedBalance
    rw [h]
    rfl
  · intro c rest h
    constructor
    · intro hok
      constructor
      · unfold handleLockedBalance
        rw [h]
        simp [hok]
      · unfold StartAggressiveBotGate
        rw [h]
        simp [hok]
    · intro hko
      unfold handleLockedBalance
      rw [h]
      simp [hko]

/-- Witness for the amended C2 at a single unconditional claimant and at
the empty claimant list. -/
theorem c2_first_claimant_session_witness :
    handleLockedBalance ⟨"B3", []⟩ = .panicked
    ∧ handleLockedBalance ⟨"B2", [⟨"GA", .unconditional⟩]⟩
        = .raceStarted (ExtractClaimableTime ClaimPredicate.unconditional).1
    ∧ StartAggressiveBotGate ⟨"B2", [⟨"GA", .unconditional⟩]⟩
        = ([], some (ExtractClaimableTime ClaimPredicate.unconditional).1) :=
  ⟨(c2_first_claimant_session ⟨"B3", []⟩).1 rfl,
    ((c2_first_claimant_session ⟨"B2", [⟨"GA", .unconditional⟩]⟩).2
      ⟨"GA", .unconditional⟩ [] rfl).1 rfl⟩

/-- Claim C5 counterexample: in the no-sponsor path the submitted
transaction contains a claim operation followed by a payment operation,
not a single claim operation. -/
theorem c5_counterexample :
    (attemptTx "GMAIN" none ⟨0, by decide⟩ 5 "BID" "GDEST").operations.length
      ≠ 1
    ∧ (attemptTx "GMAIN" none ⟨0, by decide⟩ 5 "BID" "GDEST").operations
      = [.claimClaimableBalance "BID", .payment "GDEST" (5 - 1/100)] := by
  refine ⟨by decide, rfl⟩

/-- Claim C5 as amended: with a sponsor configured the attempt submits a
single claim operation with the sponsor as fee-paying source, a fee drawn
from the fixed competitive tier set at the random index (every tier being
drawable), signed by sponsor and primary; with no sponsor the primary is
fee payer and claimant at the fixed base fee 1000000, and the transaction
carries the claim operation followed by a payment of the amount hint
minus 0.01 to the destination. -/
theorem c5_attempt_tx (mainAddr sponsorAddr balanceID address : String)
    (idx : Fin 5) (amountHint : Rat) :
    attemptTx mainAddr (some sponsorAddr) idx amountHint balanceID address
      = { sourceAccount := sponsorAddr
          operations := [.claimClaimableBalance balanceID]
          baseFee := GetCompetitiveFee idx
          signers := [sponsorAddr, mainAddr] }
    ∧ GetCompetitiveFee idx ∈ competitiveFees
    ∧ (∀ f ∈ competitiveFees, ∃ j : Fin 5, GetCompetitiveFee j = f)
    ∧ attemptTx mainAddr none idx amountHint balanceID address
      = { sourceAccount := mainAddr
          operations := [.claimClaimableBalance balanceID,
            .payment address (amountHint - 1/100)]
          baseFee := 1000000
          signers := [mainAddr] } := by
  refine ⟨rfl, ?_, by decide, rfl⟩
  fin_cases idx <;> decide

/-- Witness for the amended C5 at concrete addresses and index 0. -/
theorem c5_attempt_tx_witness :
    GetCompetitiveFee ⟨0, by decide⟩ ∈ competitiveFees :=
  (c5_attempt_tx "GM" "GS" "BID" "GD" ⟨0, by decide⟩ 5).2.1

/-- Claim C4 counterexample: an iteration with ctx not done, a nonzero
balance query result and a succeeding transfer.  The monitor emits one
success event and stops, but it never invokes the session cancellation,
refuting the part of the claim that says the token is signalled. -/
theorem c4_counterexample :
    prepareTransfer [⟨false, .ok "5.00", .ok "hash1"⟩]
      = ⟨[successEvent "Transfer completed"], false, .relayedO⟩
    ∧ (prepareTransfer [⟨false, .ok "5.00", .ok "hash1"⟩]).cancelCalled
      = false := ⟨rfl, rfl⟩

/-- Claim C4 as amended: whenever the balance query returns ok with a
nonzero amount and the transfer succeeds, the monitor emits exactly one
success event and performs no further polling iterations, and it does
not signal the session cancellation token. -/
theorem c4_monitor_success (it : MonIter) (rest : List MonIter)
    (h1 : it.ctxDone = false)
    (h2 : ∃ b, it.balanceRes = .ok b ∧ b ≠ "0")
    (h3 : ∃ h, it.transferRes = .ok h) :
    prepareTransfer (it :: rest)
      = ⟨[successEvent "Transfer completed"], false, .relayedO⟩ := by
  obtain ⟨b, hb, hbne⟩ := h2
  obtain ⟨hh, ht⟩ := h3
  unfold prepareTransfer
  rw [h1, hb, ht]
  simp [hbne]

/-- Witness for the amended C4 at a concrete iteration followed by a
further pending iteration that is never polled. -/
theorem c4_monitor_success_witness :
    prepareTransfer [⟨false, .ok "7.35", .ok "hx"⟩,
        ⟨false, .ok "1", .ok "hy"⟩]
      = ⟨[successEvent "Transfer completed"], false, .relayedO⟩ :=
  c4_monitor_success ⟨false, .ok "7.35", .ok "hx"⟩
    [⟨false, .ok "1", .ok "hy"⟩] rfl ⟨"7.35", rfl, by decide⟩ ⟨"hx", rfl⟩

/-! Helper lemmas about the worker loop traces. -/

/-- In any worker run, the sleep durations are exactly 50 + attempt * 10
for the failed attempts, in attempt order. -/
theorem aggressiveClaimGo_sleeps (ctxDone : Nat → Bool)
    (oracle : Nat → ClaimRes) (gid : Nat) :
    ∀ fuel n,
      (aggressiveClaimGo ctxDone oracle gid fuel n).sleeps
        = ((aggressiveClaimGo ctxDone oracle gid fuel n).events.filter
            (fun e => e.success == false)).map
            (fun e => 50 + e.attemptNumber * 10) := by
  intro fuel
  induction fuel with
  | zero => intro n; rfl
  | succ fuel ih =>
      intro n
      unfold aggressiveClaimGo
      by_cases hc : ctxDone n
      · simp [hc]
      · by_cases he : (oracle n).err.isNone
        · simp [hc, he, sendAttemptLogEvent, successEvent]
        · simp only [hc, he, if_false, if_neg, Bool.false_eq_true,
            not_false_eq_true]
          simp [sendAttemptLogEvent, he, ih n.succ]

/-- When ctx is never done and every attempt up from n fails, the loop
runs through its whole remaining budget: the events are exactly the
attempt logs for attempts n, n+1, ..., the sleeps follow the backoff
formula, cancel is never called, and the run ends exhausted with no
further event. -/
theorem aggressiveClaimGo_allFail (ctxDone : Nat → Bool)
    (oracle : Nat → ClaimRes) (gid : Nat)
    (hfail : ∀ n, (oracle n).err.isSome)
    (hctx : ∀ n, ctxDone n = false) :
    ∀ fuel n,
      aggressiveClaimGo ctxDone oracle gid fuel n
        = ⟨(List.range' n fuel).map
              (fun k => sendAttemptLogEvent gid k (oracle k)),
            (List.range' n fuel).map (fun k => 50 + k * 10),
            false, .exhaustedO⟩ := by
  intro fuel
  induction fuel with
  | zero => intro n; rfl
  | succ fuel ih =>
      intro n
      unfold aggressiveClaimGo
      have he : (oracle n).err.isNone = false := by
        have := hfail n
        cases h : (oracle n).err with
        | none => rw [h] at this; exact absurd this (by decide)
        | some e => simp [Option.isNone, h]
      rw [hctx n]
      simp only [if_false, Bool.false_eq_true, he, ih (n + 1)]
      rw [List.range'_succ]
      simp

/-- Claim C6 counterexample: with every submission failing and no
cancellation, the worker makes its 200 attempts and then stops silently;
the event trace holds attempt events only, so no informational completion
event reports the exhaustion. -/
theorem c6_counterexample :
    (aggressiveClaim (fun _ => false)
        (fun _ => ⟨"", 0, some "tx_failed"⟩) 0).events.length = 200
    ∧ ((aggressiveClaim (fun _ => false)
        (fun _ => ⟨"", 0, some "tx_failed"⟩) 0).events.all
        (fun e => e.action == "attempt")) = true
    ∧ (aggressiveClaim (fun _ => false)
        (fun _ => ⟨"", 0, some "tx_failed"⟩) 0).outcome = .exhaustedO := by
  have h := aggressiveClaimGo_allFail (fun _ => false)
    (fun _ => ⟨"", 0, some "tx_failed"⟩) 0
    (fun _ => rfl) (fun _ => rfl) maxAttempts 1
  unfold aggressiveClaim
  rw [h]
  refine ⟨by simp [maxAttempts], ?_, rfl⟩
  simp [List.all_eq_true, sendAttemptLogEvent]
  intro x k _ _ hx
  rw [← hx]

/-- Claim C6 as amended: after every failed attempt n the worker sleeps
exactly 50 + 10n milliseconds (the sleeps of any run are the failed
attempts mapped through the backoff formula, in order), and when all 200
budgeted attempts fail with no cancellation the worker stops with no
exhaustion event: the trace is exactly the 200 attempt logs. -/
theorem c6_backoff_and_silent_exhaustion (ctxDone : Nat → Bool)
    (oracle : Nat → ClaimRes) (gid : Nat) :
    ((aggressiveClaim ctxDone oracle gid).sleeps
      = ((aggressiveClaim ctxDone oracle gid).events.filter
          (fun e => e.success == false)).map
          (fun e => 50 + e.attemptNumber * 10))
    ∧ ((∀ n, (oracle n).err.isSome) → (∀ n, ctxDone n = false) →
        aggressiveClaim ctxDone oracle gid
          = ⟨(List.range' 1 maxAttempts).map
                (fun k => sendAttemptLogEvent gid k (oracle k)),
              (List.range' 1 maxAttempts).map (fun k => 50 + k * 10),
              false, .exhaustedO⟩) := by
  constructor
  · exact aggressiveClaimGo_sleeps ctxDone oracle gid maxAttempts 1
  · intro hfail hctx
    exact aggressiveClaimGo_allFail ctxDone oracle gid hfail hctx
      maxAttempts 1

/-- Witness for the amended C6 at the all-failing oracle. -/
theorem c6_backoff_witness :
    aggressiveClaim (fun _ => false) (fun _ => ⟨"", 0, some "err"⟩) 2
      = ⟨(List.range' 1 maxAttempts).map
            (fun k => sendAttemptLogEvent 2 k ⟨"", 0, some "err"⟩),
          (List.range' 1 maxAttempts).map (fun k => 50 + k * 10),
          false, .exhaustedO⟩ :=
  (c6_backoff_and_silent_exhaustion (fun _ => false)
    (fun _ => ⟨"", 0, some "err"⟩) 2).2 (fun _ => rfl) (fun _ => rfl)

/-- Every attempt event in a worker run is the attempt log of some
attempt at or above the starting attempt number. -/
theorem aggressiveClaimGo_attempt_events (ctxDone : Nat → Bool)
    (oracle : Nat → ClaimRes) (gid : Nat) :
    ∀ fuel n e, e ∈ (aggressiveClaimGo ctxDone oracle gid fuel n).events →
      e.action = "attempt" →
      ∃ k, n ≤ k ∧ e = sendAttemptLogEvent gid k (oracle k) := by
  intro fuel
  induction fuel with
  | zero => intro n e he _; exact absurd he (by simp [aggressiveClaimGo])
  | succ fuel ih =>
      intro n e he ha
      unfold aggressiveClaimGo at he
      by_cases hc : ctxDone n
      · simp [hc] at he
      · by_cases hne : (oracle n).err.isNone
        · simp [hc, hne] at he
          rcases he with he | he
          · exact ⟨n, le_refl n, he⟩
          · rw [he] at ha
            exact absurd ha (by simp [successEvent])
        · simp [hc, hne] at he
          rcases he with he | he
          · exact ⟨n, le_refl n, he⟩
          · obtain ⟨k, hk, hek⟩ := ih (n + 1) e he ha
            exact ⟨k, by omega, hek⟩

/-- Claim C9: every attempt event of a worker run carries the worker id,
and its amount is the amount returned by that attempt of the claim call;
the event is exactly the attempt log of its own attempt number. -/
theorem c9_attempt_event_fields (ctxDone : Nat → Bool)
    (oracle : Nat → ClaimRes) (gid : Nat) :
    ∀ e ∈ (aggressiveClaim ctxDone oracle gid).events,
      e.action = "attempt" →
      e.gid = some gid
      ∧ e.amount = (oracle e.attemptNumber).amount
      ∧ e = sendAttemptLogEvent gid e.attemptNumber
          (oracle e.attemptNumber) := by
  intro e he ha
  obtain ⟨k, _, hek⟩ := aggressiveClaimGo_attempt_events ctxDone oracle gid
    maxAttempts 1 e he ha
  have hk : e.attemptNumber = k := by rw [hek]; rfl
  rw [hk, ← hek]
  exact ⟨by rw [hek]; rfl, by rw [hek]; rfl, rfl⟩

/-- Witness for C9: a run whose first attempt succeeds, with worker id 3;
the single attempt event carries the id, the attempt number and the
returned amount. -/
theorem c9_attempt_event_fields_witness :
    (sendAttemptLogEvent 3 1 ⟨"h", 7, none⟩).gid = some 3
    ∧ (sendAttemptLogEvent 3 1 ⟨"h", 7, none⟩).amount
      = ((fun _ => (⟨"h", 7, none⟩ : ClaimRes))
          (sendAttemptLogEvent 3 1 ⟨"h", 7, none⟩).attemptNumber).amount
    ∧ sendAttemptLogEvent 3 1 ⟨"h", 7, none⟩
      = sendAttemptLogEvent 3
          (sendAttemptLogEvent 3 1 ⟨"h", 7, none⟩).attemptNumber
          ((fun _ => (⟨"h", 7, none⟩ : ClaimRes))
            (sendAttemptLogEvent 3 1 ⟨"h", 7, none⟩).attemptNumber) :=
  c9_attempt_event_fields (fun n => decide (2 ≤ n))
    (fun _ => ⟨"h", 7, none⟩) 3
    (sendAttemptLogEvent 3 1 ⟨"h", 7, none⟩) (by decide) rfl

/-! Helper invariants of the race session. -/

/-- Reachable session states hold exactly one success record when the
external resource has been claimed and none otherwise: success
completions are guarded by the single-claim enforcement of the external
ledger. -/
theorem botReach_countSucc (s : BotSt) (h : BotReach s) :
    countSucc s = (if s.resourceClaimed then 1 else 0) := by
  induction h with
  | init => rfl
  | @step s0 s1 _ hstep ih =>
      cases hstep with
      | checkpoint w hp hc =>
          simpa [countSucc] using ih
      | startCall w hp hc hn =>
          simpa [countSucc] using ih
      | completeSuccess w hp hcl =>
          rw [hcl] at ih
          simp only [if_false, Bool.false_eq_true] at ih
          simp [countSucc] at ih
          simp [countSucc, List.filter_append]
          exact ih
      | completeFail w hp =>
          simp only [countSucc, List.filter_append, List.length_append]
          simpa [countSucc] using ih
      | exhaust w hp hn =>
          simpa [countSucc] using ih

/-- In a reachable session state any success record, and any worker in
the succeeded phase, implies the cancellation flag is set: the cancel
call is part of the success completion step and nothing ever clears the
flag. -/
theorem botReach_success_cancelled (s : BotSt) (h : BotReach s) :
    (∀ r ∈ s.records, r.success = true → s.cancelled = true)
    ∧ (∀ w, (s.workers w).phase = .succeeded → s.cancelled = true) := by
  induction h with
  | init =>
      constructor
      · intro r hr
        exact absurd hr (by simp [initBot])
      · intro w hw
        exact absurd hw (by simp [initBot])
  | @step s0 s1 _ hstep ih =>
      obtain ⟨ih1, ih2⟩ := ih
      cases hstep with
      | checkpoint w hp hc =>
          exact ⟨fun r _ _ => hc, fun v _ => hc⟩
      | startCall w hp hc hn =>
          constructor
          · intro r hr hs
            exact ih1 r hr hs
          · intro v hv
            dsimp only at hv
            by_cases hvw : v = w
            · subst hvw
              rw [Function.update_same] at hv
              exact absurd hv (by simp)
            · rw [Function.update_noteq hvw] at hv
              exact ih2 v hv
      | completeSuccess w hp hcl =>
          exact ⟨fun r _ _ => rfl, fun v _ => rfl⟩
      | completeFail w hp =>
          constructor
          · intro r hr hs
            dsimp only at hr
            rcases List.mem_append.mp hr with hin | hin
            · exact ih1 r hin hs
            · rw [List.mem_singleton] at hin
              rw [hin] at hs
              exact absurd hs (by simp)
          · intro v hv
            dsimp only at hv
            by_cases hvw : v = w
            · subst hvw
              rw [Function.update_same] at hv
              exact absurd hv (by simp)
            · rw [Function.update_noteq hvw] at hv
              exact ih2 v hv
      | exhaust w hp hn =>
          constructor
          · intro r hr hs
            exact ih1 r hr hs
          · intro v hv
            dsimp only at hv
            by_cases hvw : v = w
            · subst hvw
              rw [Function.update_same] at hv
              exact absurd hv (by simp)
            · rw [Function.update_noteq hvw] at hv
              exact ih2 v hv

/-- Claim C1: in every reachable session state at most one attempt
record carries success (a consequence of the external single-claim
enforcement, not of step atomicity: several calls can be in flight at
once and calls in flight at signal time still complete and still append
records); any success record implies the cancellation token is set (the
cancel call is part of the success completion step); a worker in the
succeeded phase implies the token is set; and from a state with the
token set, no step puts a worker newly in flight: a running worker that
reaches its loop-top checkpoint can only stop, and no further network
call is started. -/
theorem c1_single_success_and_cancellation (s : BotSt)
    (h : BotReach s) :
    countSucc s ≤ 1
    ∧ (∀ r ∈ s.records, r.success = true → s.cancelled = true)
    ∧ (∀ w, (s.workers w).phase = .succeeded → s.cancelled = true)
    ∧ (s.cancelled = true →
        ∀ s', BotStep s s' → ∀ w,
          (s'.workers w).phase = .inFlight →
          (s.workers w).phase = .inFlight) := by
  have hcount := botReach_countSucc s h
  have hsc := botReach_success_cancelled s h
  refine ⟨by rw [hcount]; split <;> omega, hsc.1, hsc.2, ?_⟩
  intro hc s' hstep w hw
  cases hstep with
  | checkpoint v hp hcc =>
      dsimp only at hw
      by_cases hwv : w = v
      · subst hwv
        rw [Function.update_same] at hw
        exact absurd hw (by simp)
      · rw [Function.update_noteq hwv] at hw
        exact hw
  | startCall v hp hcf hn =>
      rw [hc] at hcf
      exact absurd hcf (by simp)
  | completeSuccess v hp hcl =>
      dsimp only at hw
      by_cases hwv : w = v
      · subst hwv
        rw [Function.update_same] at hw
        exact absurd hw (by simp)
      · rw [Function.update_noteq hwv] at hw
        exact hw
  | completeFail v hp =>
      dsimp only at hw
      by_cases hwv : w = v
      · subst hwv
        rw [Function.update_same] at hw
        exact absurd hw (by simp)
      · rw [Function.update_noteq hwv] at hw
        exact hw
  | exhaust v hp hn =>
      dsimp only at hw
      by_cases hwv : w = v
      · subst hwv
        rw [Function.update_same] at hw
        exact absurd hw (by simp)
      · rw [Function.update_noteq hwv] at hw
        exact hw

/-- Witness for C1 at the initial session state. -/
theorem c1_single_success_and_cancellation_witness :
    countSucc initBot ≤ 1
    ∧ (∀ r ∈ initBot.records, r.success = true → initBot.cancelled = true)
    ∧ (∀ w, (initBot.workers w).phase = .succeeded →
        initBot.cancelled = true)
    ∧ (initBot.cancelled = true →
        ∀ s', BotStep initBot s' → ∀ w,
          (s'.workers w).phase = .inFlight →
          (initBot.workers w).phase = .inFlight) :=
  c1_single_success_and_cancellation initBot BotReach.init

/-! Helper invariant of the locking model. -/

/-- Under one shared lock, an actor whose write is in progress (between
acquire and release) is the holder of the lock. -/
theorem syncReach_holder (s : SyncSt) (h : SyncReach oneSharedLock s) :
    ∀ a, 1 ≤ s.pc a → s.pc a ≤ 3 → s.holder .writeMu = some a := by
  induction h with
  | init => intro a h1 _; exact absurd h1 (by simp [syncInit])
  | @step s0 s1 _ hstep ih =>
      cases hstep with
      | acquire b hb hfree =>
          intro a h1 h3
          simp only [oneSharedLock] at *
          rw [Function.update_same]
          by_cases hab : a = b
          · rw [hab]
          · rw [Function.update_noteq hab] at h1 h3
            have := ih a h1 h3
            rw [this] at hfree
            exact absurd hfree (by simp)
      | beginWrite b hb =>
          intro a h1 h3
          dsimp only at h1 h3 ⊢
          by_cases hab : a = b
          · subst hab
            exact ih a (by omega) (by omega)
          · rw [Function.update_noteq hab] at h1 h3
            exact ih a h1 h3
      | endWrite b hb =>
          intro a h1 h3
          dsimp only at h1 h3 ⊢
          by_cases hab : a = b
          · subst hab
            exact ih a (by omega) (by omega)
          · rw [Function.update_noteq hab] at h1 h3
            exact ih a h1 h3
      | release b hb =>
          intro a h1 h3
          simp only [oneSharedLock] at *
          rw [Function.update_same]
          by_cases hab : a = b
          · subst hab
            rw [Function.update_same] at h1 h3
            omega
          · rw [Function.update_noteq hab] at h1 h3
            have ha := ih a h1 h3
            have hbh := ih b (by omega) (by omega)
            rw [ha] at hbh
            exact absurd (Option.some.inj hbh) hab

/-- Claim C10 counterexample: the server handler writes under writeMu
while the bot actors write under the bot mutex, two distinct locks, and
under the lock assignment the code realizes, the state in which both a
server handler and a bot actor are mid-write on the same connection is
reachable: the two serialized event writes interleave. -/
theorem c10_counterexample :
    serverWriteLock ≠ botWriteLock
    ∧ tornWrite tornState
    ∧ SyncReach codeLocks tornState := by
  refine ⟨by decide, ⟨rfl, rfl⟩, ?_⟩
  have h1 := SyncReach.step (SyncReach.init (L := codeLocks))
    (SyncStep.acquire syncInit false rfl rfl)
  have h2 := SyncReach.step h1 (SyncStep.acquire _ true rfl rfl)
  have h3 := SyncReach.step h2 (SyncStep.beginWrite _ false rfl)
  have h4 := SyncReach.step h3 (SyncStep.beginWrite _ true rfl)
  have heq : (⟨Function.update (Function.update (Function.update
      (Function.update syncInit.pc false 1) true 1) false 2) true 2,
      Function.update (Function.update syncInit.holder
        (codeLocks false) (some false)) (codeLocks true) (some true)⟩
      : SyncSt) = tornState := by
    unfold tornState
    congr 1
    · funext a; cases a <;> rfl
    · funext l; cases l <;> rfl
  rw [← heq]
  exact h4

/-- Claim C10 as amended: writes guarded by one shared lock are mutually
excluded: under the single-shared-lock assignment no reachable state has
two actors mid-write at once, while the code assigns the package-level
writeMu to server-handler writes and the per-bot mutex to bot writes, so
only writes within the same group are serialized. -/
theorem c10_one_lock_no_torn_write (s : SyncSt)
    (h : SyncReach oneSharedLock s) : ¬ tornWrite s := by
  intro ⟨hf, ht⟩
  have h1 := syncReach_holder s h false (by rw [hf]; decide)
    (by rw [hf]; decide)
  have h2 := syncReach_holder s h true (by rw [ht]; decide)
    (by rw [ht]; decide)
  rw [h1] at h2
  exact absurd (Option.some.inj h2) (by decide)

/-- Witness for the amended C10 at the initial locking state. -/
theorem c10_one_lock_no_torn_write_witness : ¬ tornWrite syncInit :=
  c10_one_lock_no_torn_write syncInit SyncReach.init

end Vancgo
